import Mathlib

/-!
Verification development for the message queue, header codec, calendar
engine and delivery engine of `src/temperature_led/main.c` of the
pico-lorawan-temperature repository.

Machine integers are modelled as `Nat`/`Int` with explicit wrap-around
(`% 2^w`): `uint32_t` quantities stay below `2^32` in every modelled
computation, `int8_t`/`int16_t` conversions use the two-complement wrap
that arm-none-eabi-gcc (the Pico toolchain) gives them, and the C `%` and
`/` on `int` are `Int.tmod` / `Int.tdiv` (truncation toward zero, as C99
requires).  Stateful code is embedded as explicit state passing; external
effects (the radio, the RTC, logging) are oracles or are dropped when they
do not touch the modelled state.
-/

/-- `MESSAGE_QUEUE_SIZE` (main.c line 38). -/
def MESSAGE_QUEUE_SIZE : Nat := 100

/-- `MESSAGE_VERSION` (main.c line 39). -/
def MESSAGE_VERSION : Nat := 0

/-- `MESSAGE_TIMEOUT_US` (main.c line 42). -/
def MESSAGE_TIMEOUT_US : Nat := 600000000

/-- Conversion of an `int` value to `int8_t`.  On the Pico toolchain
(arm gcc) an out-of-range value converts by two-complement wrap, which is
what this computes: the result is the representative of `x` mod 256 lying
in `[-128, 127]`. -/
def toInt8 (x : Int) : Int := (x + 128) % 256 - 128

/-- Conversion of an `int` value to `int16_t`, by two-complement wrap into
`[-32768, 32767]` (same toolchain convention as `toInt8`). -/
def toInt16 (x : Int) : Int := (x + 32768) % 65536 - 32768

/-- `receive_buffer[i] -= 128` on a `uint8_t` cell (main.c line 405):
unsigned byte arithmetic wraps mod 256, and `-128` is `+128` mod 256. -/
def u8sub128 (b : Nat) : Nat := (b + 128) % 256

/-- `create_message_timestamp` (main.c lines 267-276): packs the RTC
day-of-week into bits 17-19 and the seconds past midnight into bits 0-16
of the 20-bit message timestamp. -/
def create_message_timestamp (dotw hour min sec : Nat) : Nat :=
  (dotw <<< 17) + hour * 3600 + min * 60 + sec

/-- The header packing expression of `create_message_entry`
(main.c lines 299-304).  At the call site `version` is the constant
`MESSAGE_VERSION`; the bit layout (header comment, main.c lines 95-106) is
version in bits 29-31, timestamp in bits 9-28, guaranteed-delivery flag in
bit 8, type in bits 4-7 and content length in bits 0-3.  All intermediate
values stay below `2^32`, so no `uint32_t` wrap is needed. -/
def encode_header (version timestamp : Nat) (guaranteed_delivery : Bool)
    (type content_length : Nat) : Nat :=
  ((version &&& 0x07) <<< 29) |||
  ((timestamp &&& 0xFFFFF) <<< 9) |||
  ((if guaranteed_delivery then 1 else 0) <<< 8) |||
  ((type &&& 0x0F) <<< 4) |||
  (content_length &&& 0x0F)

/-- `receive_version` extraction (main.c line 596). -/
def decode_version (h : Nat) : Nat := (h >>> 29) &&& 0x07

/-- `receive_timestamp` extraction (main.c line 597), also used by
`match_message_by_header` (main.c line 330). -/
def decode_timestamp (h : Nat) : Nat := (h >>> 9) &&& 0xFFFFF

/-- `receive_guaranteed_delivery` extraction (main.c line 598):
`(receive_header >> 8) & 0x01 ? true : false`. -/
def decode_guaranteed (h : Nat) : Bool := ((h >>> 8) &&& 0x01) != 0

/-- `receive_type` extraction (main.c line 599). -/
def decode_type (h : Nat) : Nat := (h >>> 4) &&& 0x0F

/-- Content-length field, bits 0-3 of the header per the layout comment
(main.c lines 95-106) and the packing in `create_message_entry`. -/
def decode_content_length (h : Nat) : Nat := h &&& 0x0F

/-- Day-of-week half of the 20-bit timestamp (main.c line 601;
`create_message_entry` masks the same three bits at line 312). -/
def timestamp_dow (ts : Nat) : Nat := ts >>> 17

/-- Time-of-day half of the 20-bit timestamp (main.c line 601). -/
def timestamp_time (ts : Nat) : Nat := ts &&& 0x1FFFF

/-- `is_leap_year` (main.c lines 357-359); the C `%` on signed integers is
`Int.tmod` (truncation toward zero). -/
def is_leap_year (year : Int) : Bool :=
  (year.tmod 4 == 0 && year.tmod 100 != 0) || year.tmod 400 == 0

/-- `time_component_limits_min` (main.c line 361). -/
def time_component_limits_min : List Int := [0, 0, 0, 1, 1]

/-- `getTimeComponentLimitMin` (main.c lines 362-364). -/
def getTimeComponentLimitMin (component_number : Nat) : Int :=
  time_component_limits_min.getD component_number 0

/-- `time_component_limits_max` (main.c line 366). -/
def time_component_limits_max : List Int := [60, 60, 24, 31, 12]

/-- `time_component_month_limits_max` (main.c line 367). -/
def time_component_month_limits_max : List Int :=
  [31, 28, 31, 30, 31, 30, 31, 31, 30, 31, 30, 31]

/-- `getTimeComponentLimitMax` (main.c lines 368-383).  A list read out of
range returns the default 0 where the C array read would be undefined
behaviour (every claim keeps the month in 1..12). -/
def getTimeComponentLimitMax (component_number : Nat) (month year : Int) :
    Int :=
  if component_number = 3 then
    if month = 2 then
      time_component_month_limits_max.getD (month - 1).toNat 0 +
        (if is_leap_year year then 1 else 0)
    else
      time_component_month_limits_max.getD (month - 1).toNat 0
  else
    time_component_limits_max.getD component_number 0

/-- `month_key` (main.c line 385). -/
def month_key : List Int := [1, 4, 4, 0, 2, 5, 0, 3, 6, 1, 4, 6]

/-- `calculate_dow` (main.c lines 386-398).  `day_of_week` is an `int8_t`
local, so each assignment to it wraps (`toInt8`); the C `%` and `/` on
`int` truncate toward zero (`Int.tmod`, `Int.tdiv`). -/
def calculate_dow (day month year : Int) : Int :=
  let dow0 : Int :=
    toInt8 (day + month_key.getD (month - 1).toNat 0 +
      (if (month == 1 || month == 2) && is_leap_year year then -1 else 0) -
      1 - 1)
  let year2 : Int := year.tmod 100
  let dow1 : Int := toInt8 (dow0 + year2 + year2.tdiv 4)
  toInt8 (dow1.tmod 7)

/-- Cumulative day counts per month of a non-leap year (reference data,
not from the source). -/
def gregorian_cumulative_days : List Nat :=
  [0, 31, 59, 90, 120, 151, 181, 212, 243, 273, 304, 334]

/-- Gregorian leap-year rule on `Nat` (reference, not from the source). -/
def gregorian_leap (y : Nat) : Bool :=
  (y % 4 == 0 && y % 100 != 0) || y % 400 == 0

/-- Reference day of week following the words of the specification
("agreeing with the Gregorian calendar", 0 denoting Sunday): the classic
proleptic Gregorian day count reduced mod 7.  This definition follows the
spec, not the source, and exists only to compare `calculate_dow` with the
calendar; `gregorian_dow 2023 1 1 = 0` (a Sunday) anchors it. -/
def gregorian_dow (year month day : Nat) : Nat :=
  let doy := gregorian_cumulative_days.getD (month - 1) 0 +
    (if gregorian_leap year && decide (month > 2) then 1 else 0) + day
  (365 * (year - 1) + (year - 1) / 4 - (year - 1) / 100 + (year - 1) / 400 +
    doy) % 7

/-- The Pico SDK `datetime_t`: `year` is an `int16_t`, every other field
an `int8_t`. -/
structure datetime where
  year : Int
  month : Int
  day : Int
  dotw : Int
  hour : Int
  min : Int
  sec : Int
deriving DecidableEq

/-- The delta-application phase of `sync_time_on_timestamp`
(main.c lines 400-414): each receive-buffer byte 4..10 has 128 subtracted
as a `uint8_t` (wrapping, `u8sub128`), and the results - still unsigned
values 0..255 - are added to the `datetime_t` fields, each store wrapping
at the field width (`int16_t` year, `int8_t` others).  `dotw` is zeroed
(line 414). -/
def apply_time_deltas (cur : datetime) (receive_buffer : List Nat) :
    datetime :=
  let d : Nat → Int := fun i => (u8sub128 (receive_buffer.getD i 0) : Int)
  { year := toInt16 (cur.year + (d 4) * 100 + d 5)
    month := toInt8 (cur.month + d 6)
    day := toInt8 (cur.day + d 7)
    dotw := 0
    hour := toInt8 (cur.hour + d 8)
    min := toInt8 (cur.min + d 9)
    sec := toInt8 (cur.sec + d 10) }

/-- One iteration of the normalization loop of `sync_time_on_timestamp`
(main.c lines 424-435) for component `i` (0 second, 1 minute, 2 hour,
3 day, 4 month).  The limit `lmax` is computed from the month and year as
they stand when the iteration begins - for `i = 3` that is the month value
before any borrow decrements it.  Component stores wrap at `int8_t` width
(`int16_t` for the year). -/
def norm_step : Nat → datetime → datetime
  | 0, t =>
    if t.sec < getTimeComponentLimitMin 0 then
      { t with min := toInt8 (t.min - 1),
               sec := toInt8 (t.sec + getTimeComponentLimitMax 0 t.month t.year) }
    else if getTimeComponentLimitMax 0 t.month t.year +
        getTimeComponentLimitMin 0 ≤ t.sec then
      { t with min := toInt8 (t.min + 1),
               sec := toInt8 (t.sec - getTimeComponentLimitMax 0 t.month t.year) }
    else t
  | 1, t =>
    if t.min < getTimeComponentLimitMin 1 then
      { t with hour := toInt8 (t.hour - 1),
               min := toInt8 (t.min + getTimeComponentLimitMax 1 t.month t.year) }
    else if getTimeComponentLimitMax 1 t.month t.year +
        getTimeComponentLimitMin 1 ≤ t.min then
      { t with hour := toInt8 (t.hour + 1),
               min := toInt8 (t.min - getTimeComponentLimitMax 1 t.month t.year) }
    else t
  | 2, t =>
    if t.hour < getTimeComponentLimitMin 2 then
      { t with day := toInt8 (t.day - 1),
               hour := toInt8 (t.hour + getTimeComponentLimitMax 2 t.month t.year) }
    else if getTimeComponentLimitMax 2 t.month t.year +
        getTimeComponentLimitMin 2 ≤ t.hour then
      { t with day := toInt8 (t.day + 1),
               hour := toInt8 (t.hour - getTimeComponentLimitMax 2 t.month t.year) }
    else t
  | 3, t =>
    if t.day < getTimeComponentLimitMin 3 then
      { t with month := toInt8 (t.month - 1),
               day := toInt8 (t.day + getTimeComponentLimitMax 3 t.month t.year) }
    else if getTimeComponentLimitMax 3 t.month t.year +
        getTimeComponentLimitMin 3 ≤ t.day then
      { t with month := toInt8 (t.month + 1),
               day := toInt8 (t.day - getTimeComponentLimitMax 3 t.month t.year) }
    else t
  | 4, t =>
    if t.month < getTimeComponentLimitMin 4 then
      { t with year := toInt16 (t.year - 1),
               month := toInt8 (t.month + getTimeComponentLimitMax 4 t.month t.year) }
    else if getTimeComponentLimitMax 4 t.month t.year +
        getTimeComponentLimitMin 4 ≤ t.month then
      { t with year := toInt16 (t.year + 1),
               month := toInt8 (t.month - getTimeComponentLimitMax 4 t.month t.year) }
    else t
  | _ + 5, t => t

/-- Component accessor matching `time_components` (main.c lines 416-422):
0 second, 1 minute, 2 hour, 3 day-of-month, 4 month. -/
def time_component (i : Nat) (t : datetime) : Int :=
  match i with
  | 0 => t.sec
  | 1 => t.min
  | 2 => t.hour
  | 3 => t.day
  | 4 => t.month
  | _ + 5 => 0

/-- The full five-component normalization loop (main.c lines 424-435),
least significant component first. -/
def normalize_time (t : datetime) : datetime :=
  norm_step 4 (norm_step 3 (norm_step 2 (norm_step 1 (norm_step 0 t))))

/-- `sync_time_on_timestamp` (main.c lines 400-467) as a transformer of
the RTC datetime: applies the wrapped deltas of receive-buffer bytes
4..10, normalizes, then recomputes the day of week with `calculate_dow`
(line 438).  The RTC get/set calls and the logging are external
effects. -/
def sync_time_on_timestamp (cur : datetime) (receive_buffer : List Nat) :
    datetime :=
  let t := normalize_time (apply_time_deltas cur receive_buffer)
  { t with dotw := calculate_dow t.day t.month t.year }

/-- `struct message_entry` (main.c lines 118-130).  `id` models the
identity of the malloc-allocated node (pointer identity); the `next`
pointers are represented by list order. -/
structure message_entry where
  id : Nat
  header : Nat
  content : List Nat
  version : Nat
  f_port : Nat
  guaranteed_delivery : Bool
  type : Nat
  content_length : Nat
  send_time : Nat
  dow : Nat
deriving DecidableEq

/-- The mutable globals of main.c: `message_queue` (pending list, head
first, line 131), `free_queue` (line 132), `failed_send_packet_count`
(line 470) and `skip_first_received_messages` (line 469).  The model is
sequential, so the two critical sections are not represented. -/
structure SysState where
  message_queue : List message_entry
  free_queue : List message_entry
  failed_send_packet_count : Nat
  skip_first_received_messages : Bool
deriving DecidableEq

/-- The linear scan of `cleanup_message` (main.c lines 239-249): unlink
the first node that is `message` (pointer identity, here `id` equality);
if no node matches, the list is returned unchanged (the C code prints an
integrity warning, line 252). -/
def remove_first (i : Nat) : List message_entry → List message_entry
  | [] => []
  | e :: rest => if e.id = i then rest else e :: remove_first i rest

/-- `cleanup_message` (main.c lines 230-265).  A null `message` returns at
once (lines 231-233) leaving the state untouched.  Otherwise, when the
pending list is empty the else-branch at line 240 evaluates
`message_queue->next` with `message_queue == NULL`: undefined behaviour,
modelled as `none`.  When the pending list is non-empty the head check
(line 236) or the scan unlinks the message if present, and in every case
the slot is pushed onto the free queue head (lines 257-260) - also when
it was not found in the pending list. -/
def cleanup_message (message : Option message_entry) (st : SysState) :
    Option SysState :=
  match message with
  | none => some st
  | some m =>
    match st.message_queue with
    | [] => none
    | p :: rest =>
      let queue1 := if p.id = m.id then rest else p :: remove_first m.id rest
      some { st with message_queue := queue1,
                     free_queue := m :: st.free_queue }

/-- `create_message_entry` (main.c lines 278-324), as a function of the
timestamp read from the RTC (line 279) and the state.  The first
component counts invocations of `machine_reset` (lines 285-288):
`machine_reset` never returns (`while (1)`, line 162), so on an empty
free queue there is no successor state and nothing is enqueued.
Otherwise the free-queue head is popped, its fields overwritten
(lines 299-313, content length truncated to 7 at lines 281-283) and the
slot pushed onto the pending-queue head (lines 316-319). -/
def create_message_entry (timestamp : Nat) (f_port : Nat)
    (guaranteed_delivery : Bool) (type : Nat) (content : List Nat)
    (content_length : Nat) (st : SysState) : Nat × Option SysState :=
  let cl := if content_length > 7 then 7 else content_length
  match st.free_queue with
  | [] => (1, none)
  | slot :: rest =>
    let message : message_entry :=
      { id := slot.id
        header := encode_header MESSAGE_VERSION timestamp
          guaranteed_delivery type cl
        content := content.take cl
        version := MESSAGE_VERSION
        f_port := f_port
        guaranteed_delivery := guaranteed_delivery
        type := type
        content_length := cl
        send_time := 0
        dow := (timestamp >>> 17) &&& 0x07 }
    (0, some { st with message_queue := message :: st.message_queue,
                       free_queue := rest })

/-- `match_message_by_header` (main.c lines 326-343): the first pending
message matching (port, timestamp, guaranteed flag, type); the `version`
parameter is accepted but never compared, as in the source. -/
def match_message_by_header (version receive_port : Nat)
    (guaranteed_delivery : Bool) (type : Nat) (response_timestamp : Nat) :
    List message_entry → Option message_entry
  | [] => none
  | current :: rest =>
    if receive_port = current.f_port ∧
        response_timestamp = decode_timestamp current.header ∧
        guaranteed_delivery = current.guaranteed_delivery ∧
        type = current.type then
      some current
    else
      match_message_by_header version receive_port guaranteed_delivery
        type response_timestamp rest

/-- `scheduled_daily_tasks` (main.c lines 801-837).  Its first executable
statement is `return true;` (line 803): the expiry sweep and the time
sync below it are unreachable, so the call returns `true` and leaves
every queue untouched.  `current_dotw` stands for the RTC day of week
that the dead code would have read. -/
def scheduled_daily_tasks (current_dotw : Nat) (st : SysState) :
    Bool × SysState :=
  (true, st)

/-- A message slot as it leaves `malloc` in `main` (lines 909-913): the C
fields are uninitialized; the model fills them with zeros, and nothing
reads them before `create_message_entry` overwrites them. -/
def blank_entry (i : Nat) : message_entry :=
  { id := i, header := 0, content := [], version := 0, f_port := 0,
    guaranteed_delivery := false, type := 0, content_length := 0,
    send_time := 0, dow := 0 }

/-- The state after the allocation loop of `main` (lines 908-914):
`MESSAGE_QUEUE_SIZE` freshly allocated slots on the free queue, an empty
pending queue, the globals at their initializers (lines 469-470). -/
def init_state : SysState :=
  { message_queue := []
    free_queue := (List.range MESSAGE_QUEUE_SIZE).map blank_entry
    failed_send_packet_count := 0
    skip_first_received_messages := true }

/-- The states reachable from `init_state` by finite sequences of
`create_message_entry` calls that return (non-empty free queue) and
`cleanup_message` calls on a currently pending slot - the operation
sequences of claim C7. -/
inductive reachable : SysState → Prop
  | init : reachable init_state
  | create (st : SysState) (timestamp f_port : Nat)
      (guaranteed_delivery : Bool) (type : Nat) (content : List Nat)
      (content_length : Nat) (st2 : SysState) :
      reachable st →
      (create_message_entry timestamp f_port guaranteed_delivery type
        content content_length st).2 = some st2 →
      reachable st2
  | cleanup (st : SysState) (m : message_entry) (st2 : SysState) :
      reachable st → m ∈ st.message_queue →
      cleanup_message (some m) st = some st2 →
      reachable st2

/-- One interaction of the listen loop with the radio (main.c
lines 559-647): `timeout` is `lorawan_process_timeout_ms` returning
nonzero, `recv_fail` a poll in which `lorawan_receive` reports a negative
length (line 567), `recv` a received downlink datagram with its port. -/
inductive recv_event
  | timeout
  | recv_fail
  | recv (receive_port : Nat) (receive_buffer : List Nat)
deriving DecidableEq

/-- The write `message->send_time = get_us_since_boot()` (line 556) goes
through the node pointer: it updates the slot wherever it currently
lives - the pending queue, or the free queue if the message was just
released there by `cleanup_message`. -/
def set_send_time (i now : Nat) (st : SysState) : SysState :=
  let upd : message_entry → message_entry :=
    fun e => if e.id = i then { e with send_time := now } else e
  { st with message_queue := st.message_queue.map upd,
            free_queue := st.free_queue.map upd }

/-- The receive phase of `transfer_data` (main.c lines 559-647), entered
after a successful send: consumes oracle events until a listen timeout.
On a datagram: during the start-up window it is discarded (lines
575-580); otherwise the header is rebuilt little-endian (lines 591-595),
decoded (lines 596-599) and the correlated pending message removed
(line 604; the `getD` default is unreachable because a matched message is
in the non-empty pending queue).  The port dispatch that follows mutates
only the RTC (port 222 type 0, `sync_time_on_timestamp`) or the LED
(port 1 type 1), never the queues, so it is not part of this state
transition.  On a timeout the start-up window ends (line 644) and the
loop breaks; an exhausted oracle behaves like a timeout, since
`lorawan_process_timeout_ms` eventually times out. -/
def listen_loop (st : SysState) :
    List recv_event → SysState × List recv_event
  | [] => ({ st with skip_first_received_messages := false }, [])
  | recv_event.timeout :: evs =>
    ({ st with skip_first_received_messages := false }, evs)
  | recv_event.recv_fail :: evs => listen_loop st evs
  | recv_event.recv receive_port receive_buffer :: evs =>
    if st.skip_first_received_messages then
      listen_loop st evs
    else
      let receive_header :=
        ((receive_buffer.getD 3 0) <<< 24) |||
        ((receive_buffer.getD 2 0) <<< 16) |||
        ((receive_buffer.getD 1 0) <<< 8) |||
        receive_buffer.getD 0 0
      let matched := match_message_by_header (decode_version receive_header)
        receive_port (decode_guaranteed receive_header)
        (decode_type receive_header) (decode_timestamp receive_header)
        st.message_queue
      listen_loop ((cleanup_message matched st).getD st) evs

/-- The message loop of `transfer_data` (main.c lines 491-650), walking a
snapshot of the pending chain (`next_message` is captured before any
possible removal, line 493).  `now` is `get_us_since_boot()`, treated as
constant across the walk; `sendR k` is the result of the k-th
`lorawan_send_unconfirmed` call.  A failed send increments the failure
counter and aborts the whole call with `false` (lines 536-543); a
successful send releases a non-guaranteed message (lines 549-551), zeroes
the failure counter, stamps the send time (line 556) and runs the listen
phase.  `none` propagates the undefined-behaviour case of
`cleanup_message`. -/
def transfer_walk (now : Nat) (sendR : Nat → Int) :
    List message_entry → SysState → List recv_event → Nat →
    Option (Bool × SysState × List recv_event × Nat)
  | [], st, evs, k => some (true, st, evs, k)
  | message :: rest, st, evs, k =>
    if now - message.send_time > MESSAGE_TIMEOUT_US then
      if sendR k < 0 then
        some (false,
          { st with failed_send_packet_count :=
              st.failed_send_packet_count + 1 },
          evs, k + 1)
      else
        match
          (if message.guaranteed_delivery then some st
           else cleanup_message (some message) st) with
        | none => none
        | some st1 =>
          let st2 := set_send_time message.id now
            { st1 with failed_send_packet_count := 0 }
          let p := listen_loop st2 evs
          transfer_walk now sendR rest p.1 p.2 (k + 1)
    else
      transfer_walk now sendR rest st evs k

/-- `transfer_data` (main.c lines 471-653).  `none` models the
non-returning `machine_reset` (line 483, after more than five consecutive
send failures) and the undefined-behaviour path of `cleanup_message`;
otherwise `some (return value, final state)`.  An empty pending queue
returns `true` at once (lines 487-489). -/
def transfer_data (now : Nat) (sendR : Nat → Int) (evs : List recv_event)
    (st : SysState) : Option (Bool × SysState) :=
  if st.failed_send_packet_count > 5 then none
  else
    match st.message_queue with
    | [] => some (true, st)
    | msgs =>
      match transfer_walk now sendR msgs st evs 0 with
      | none => none
      | some (b, st2, _, _) => some (b, st2)

/-- Projection of a `transfer_data` result: the returned boolean. -/
def td_result_ok : Option (Bool × SysState) → Bool
  | some (b, _) => b
  | none => false

/-- Projection of a `transfer_data` result: ids on the pending queue. -/
def td_pending_ids : Option (Bool × SysState) → List Nat
  | some (_, st) => st.message_queue.map message_entry.id
  | none => []

/-- Projection of a `transfer_data` result: ids on the free queue. -/
def td_free_ids : Option (Bool × SysState) → List Nat
  | some (_, st) => st.free_queue.map message_entry.id
  | none => []

/-- March 1 2023, midnight (a Wednesday): starting time of the concrete
calendar scenarios. -/
def c3_start : datetime :=
  { year := 2023, month := 3, day := 1, dotw := 3, hour := 0, min := 0,
    sec := 0 }

/-- A time-sync payload whose only nonzero delta is a day delta of -1
(byte 127, bias 128): bytes 0-3 are the header, bytes 4..10 the deltas
in the order year-hundreds, year-ones, month, day, hour, minute,
second. -/
def c3_buffer : List Nat := [0, 0, 0, 0, 128, 128, 128, 127, 128, 128, 128]

/-- Midnight with five minutes on the clock, for the carry witness. -/
def c3a_start : datetime :=
  { year := 2023, month := 3, day := 15, dotw := 3, hour := 0, min := 5,
    sec := 0 }

/-- A time-sync payload whose only nonzero delta is a second delta of
+60 (byte 188, bias 128). -/
def c3a_buffer : List Nat :=
  [0, 0, 0, 0, 128, 128, 128, 128, 128, 128, 188]

/-- 10:20:00, for the single-adjustment counterexample. -/
def c10_start : datetime :=
  { year := 2023, month := 3, day := 15, dotw := 3, hour := 10, min := 20,
    sec := 0 }

/-- Only a +60 second delta (byte 188). -/
def c10_buffer : List Nat :=
  [0, 0, 0, 0, 128, 128, 128, 128, 128, 128, 188]

/-- 00:00:50, for the out-of-range-seconds witness. -/
def c10w_start : datetime :=
  { year := 2023, month := 3, day := 15, dotw := 3, hour := 0, min := 0,
    sec := 50 }

/-- Only a +75 second delta (byte 203), pushing the seconds to 125. -/
def c10w_buffer : List Nat :=
  [0, 0, 0, 0, 128, 128, 128, 128, 128, 128, 203]

/-- A sample pending message slot. -/
def sample_entry (i dow0 : Nat) (g : Bool) : message_entry :=
  { id := i, header := 0, content := [1], version := 0, f_port := 1,
    guaranteed_delivery := g, type := 1, content_length := 1,
    send_time := 0, dow := dow0 }

/-- One never-sent non-guaranteed message pending, nothing free. -/
def c1x_state : SysState :=
  { message_queue := [sample_entry 7 0 false], free_queue := [],
    failed_send_packet_count := 0, skip_first_received_messages := true }

/-- One never-sent non-guaranteed message pending, for the C1 witness. -/
def c1w_state : SysState :=
  { message_queue := [sample_entry 9 0 false], free_queue := [],
    failed_send_packet_count := 0, skip_first_received_messages := true }

/-- One pending message, empty free queue, for the C2 scenarios. -/
def c2_state : SysState :=
  { message_queue := [sample_entry 1 0 false], free_queue := [],
    failed_send_packet_count := 0, skip_first_received_messages := true }

/-- Empty pending and free queues. -/
def empty_state : SysState :=
  { message_queue := [], free_queue := [],
    failed_send_packet_count := 0, skip_first_received_messages := true }

/-- A pending message whose stored day of week equals
`(1 + 2) % 7 = 3`, the expiry target of a sweep run on a Monday. -/
def c6_state : SysState :=
  { message_queue := [sample_entry 4 3 true], free_queue := [],
    failed_send_packet_count := 0, skip_first_received_messages := true }

theorem or_eq_add_of_dvd {n : Nat} (x b : Nat) (hb : b < 2 ^ n)
    (hx : 2 ^ n ∣ x) : x ||| b = x + b := by
  obtain ⟨a, rfl⟩ := hx
  exact (Nat.mul_add_lt_is_or hb a).symm

theorem and_7_eq (x : Nat) : x &&& 7 = x % 8 := by
  have h := Nat.and_pow_two_sub_one_eq_mod x 3
  norm_num at h
  exact h

theorem and_15_eq (x : Nat) : x &&& 15 = x % 16 := by
  have h := Nat.and_pow_two_sub_one_eq_mod x 4
  norm_num at h
  exact h

theorem and_fffff_eq (x : Nat) : x &&& 1048575 = x % 1048576 := by
  have h := Nat.and_pow_two_sub_one_eq_mod x 20
  norm_num at h
  exact h

theorem and_1ffff_eq (x : Nat) : x &&& 131071 = x % 131072 := by
  have h := Nat.and_pow_two_sub_one_eq_mod x 17
  norm_num at h
  exact h

theorem encode_header_eq (v ts : Nat) (g : Bool) (t c : Nat)
    (hv : v < 8) (hts : ts < 1048576) (ht : t < 16) (hc : c < 16) :
    encode_header v ts g t c =
      536870912 * v + 512 * ts + 256 * (if g then 1 else 0) + 16 * t + c := by
  have hg : (if g then (1 : Nat) else 0) < 2 := by cases g <;> norm_num
  unfold encode_header
  simp only [Nat.shiftLeft_eq, and_7_eq, and_15_eq, and_fffff_eq]
  rw [Nat.mod_eq_of_lt hv, Nat.mod_eq_of_lt hts, Nat.mod_eq_of_lt ht,
    Nat.mod_eq_of_lt hc]
  rw [or_eq_add_of_dvd (n := 29) (v * 2 ^ 29) (ts * 2 ^ 9)
    (by norm_num; omega) ⟨v, by ring⟩]
  rw [or_eq_add_of_dvd (n := 9) _ ((if g then 1 else 0) * 2 ^ 8)
    (by cases g <;> norm_num) ⟨v * 2 ^ 20 + ts, by ring⟩]
  rw [or_eq_add_of_dvd (n := 8) _ (t * 2 ^ 4)
    (by norm_num; omega)
    ⟨v * 2 ^ 21 + ts * 2 + (if g then 1 else 0), by ring⟩]
  rw [or_eq_add_of_dvd (n := 4) _ c (by norm_num; omega)
    ⟨v * 2 ^ 25 + ts * 2 ^ 5 + (if g then 1 else 0) * 2 ^ 4 + t, by ring⟩]
  norm_num
  ring

/-- C4: for every tuple (version, dow, seconds-of-day, guaranteed, type,
content-length) within the bit-width bounds of the claim, decoding the
32-bit header word produced by the packing expression of
`create_message_entry` recovers exactly the original tuple, the 20-bit
timestamp being day-of-week in bits 17-19 and seconds-of-day in
bits 0-16. -/
theorem header_codec_roundtrip (v d s : Nat) (g : Bool) (t c : Nat)
    (hv : v < 8) (hd : d < 8) (hs : s < 86400) (ht : t < 16) (hc : c < 16) :
    decode_version (encode_header v ((d <<< 17) + s) g t c) = v ∧
    timestamp_dow (decode_timestamp (encode_header v ((d <<< 17) + s) g t c)) = d ∧
    timestamp_time (decode_timestamp (encode_header v ((d <<< 17) + s) g t c)) = s ∧
    decode_guaranteed (encode_header v ((d <<< 17) + s) g t c) = g ∧
    decode_type (encode_header v ((d <<< 17) + s) g t c) = t ∧
    decode_content_length (encode_header v ((d <<< 17) + s) g t c) = c := by
  have hts : (d <<< 17) + s < 1048576 := by
    rw [Nat.shiftLeft_eq]
    norm_num
    omega
  rw [Nat.shiftLeft_eq] at hts ⊢
  rw [encode_header_eq v (d * 2 ^ 17 + s) g t c hv hts ht hc]
  unfold decode_version decode_timestamp decode_guaranteed decode_type
    decode_content_length timestamp_dow timestamp_time
  simp only [Nat.shiftRight_eq_div_pow, and_7_eq, and_15_eq, and_fffff_eq,
    and_1ffff_eq, Nat.and_one_is_mod]
  cases g <;> norm_num <;>
    refine ⟨by omega, by omega, by omega, by omega, by omega, by omega⟩

theorem toInt8_bounds (x : Int) : -128 ≤ toInt8 x ∧ toInt8 x ≤ 127 := by
  unfold toInt8
  have h1 : 0 ≤ (x + 128) % 256 := Int.emod_nonneg _ (by norm_num)
  have h2 : (x + 128) % 256 < 256 := Int.emod_lt_of_pos _ (by norm_num)
  omega

theorem toInt8_eq_of_range (x : Int) (h1 : -128 ≤ x) (h2 : x ≤ 127) :
    toInt8 x = x := by
  unfold toInt8
  rw [Int.emod_eq_of_lt (by omega) (by omega)]
  omega

theorem tmod_seven_bounds (x : Int) : -6 ≤ x.tmod 7 ∧ x.tmod 7 ≤ 6 := by
  match x with
  | Int.ofNat m =>
    have h1 : (Int.ofNat m).tmod 7 = Int.ofNat (m % 7) := rfl
    have h2 : m % 7 < 7 := Nat.mod_lt _ (by norm_num)
    rw [h1, Int.ofNat_eq_natCast]
    omega
  | Int.negSucc m =>
    have h1 : (Int.negSucc m).tmod 7 = -Int.ofNat ((m + 1) % 7) := rfl
    have h2 : (m + 1) % 7 < 7 := Nat.mod_lt _ (by norm_num)
    rw [h1, Int.ofNat_eq_natCast]
    omega

theorem toInt8_tmod7 (x : Int) :
    -6 ≤ toInt8 (x.tmod 7) ∧ toInt8 (x.tmod 7) ≤ 6 := by
  have h := tmod_seven_bounds x
  rw [toInt8_eq_of_range _ (by omega) (by omega)]
  exact h

/-- C5 (amended): `calculate_dow` always returns a value in [-6, 6] (the
truncated `% 7` of an `int8_t`), and the two dates pinned by the claim
hold: January 1 2023 gives 0 (Sunday) and February 29 2024 gives 4
(Thursday).  The stronger statements of the claim - a result in 0..6 and
agreement with the Gregorian calendar on every date of 2000-2099 - fail
on the code (see the counterexample). -/
theorem calculate_dow_range_and_pinned_dates :
    (∀ day month year : Int,
      -6 ≤ calculate_dow day month year ∧
        calculate_dow day month year ≤ 6) ∧
    calculate_dow 1 1 2023 = 0 ∧ calculate_dow 29 2 2024 = 4 := by
  refine ⟨fun day month year => ?_, by decide, by decide⟩
  unfold calculate_dow
  exact toInt8_tmod7 _

/-- C5 counterexample: `calculate_dow` does not return a value in 0..6
for every valid date of 2000-2099, nor does it always agree with the
Gregorian calendar: January 1 2000 yields -1 (truncated C `%` of a
negative value), and December 31 2099 yields 0 where the Gregorian day of
week is 4 (Thursday) - the `int8_t` intermediate 158 wraps to -98. -/
theorem calculate_dow_counterexample :
    calculate_dow 1 1 2000 = -1 ∧ ¬ 0 ≤ calculate_dow 1 1 2000 ∧
    calculate_dow 31 12 2099 = 0 ∧ gregorian_dow 2099 12 31 = 4 := by
  decide

/-- C9: `cleanup_message` with a null message pointer - the case arising
at line 604 when `match_message_by_header` finds no pending message
correlated to a received header - returns immediately and leaves the
pending queue and the free queue (the whole state) unchanged. -/
theorem cleanup_message_null (st : SysState) :
    cleanup_message none st = some st := rfl

theorem remove_first_not_mem (i : Nat) (l : List message_entry)
    (h : i ∉ l.map message_entry.id) : remove_first i l = l := by
  induction l with
  | nil => rfl
  | cons e rest ih =>
    simp only [List.map_cons, List.mem_cons] at h
    push_neg at h
    unfold remove_first
    rw [if_neg (fun he => h.1 he.symm), ih h.2]

/-- C2 (amended): for a non-null slot `s` that is not a member of the
pending list: when the pending list is non-empty, the call does not
crash, the pending list is unchanged and the integrity warning is logged,
but `s` IS pushed onto the head of the free list; when the pending list
is empty, the call dereferences a null pointer (line 240) - undefined
behaviour rather than a logged no-op. -/
theorem cleanup_message_absent :
    (∀ st s, s.id ∉ st.message_queue.map message_entry.id →
      st.message_queue ≠ [] →
      cleanup_message (some s) st =
        some { st with free_queue := s :: st.free_queue }) ∧
    (∀ st s, st.message_queue = [] →
      cleanup_message (some s) st = none) := by
  constructor
  · intro st s habs hne
    cases hq : st.message_queue with
    | nil => exact absurd hq hne
    | cons p rest =>
      rw [hq] at habs
      simp only [List.map_cons, List.mem_cons] at habs
      push_neg at habs
      simp only [cleanup_message, hq]
      rw [if_neg (fun he => habs.1 he.symm), remove_first_not_mem _ _ habs.2,
        ← hq]
  · intro st s hq
    simp only [cleanup_message, hq]

/-- Witness for C2: slot 3 is absent from both queues of `c2_state`;
removing it leaves the one-element pending list alone but pushes slot 3
onto the (previously empty) free queue; on `empty_state` the same call
hits the undefined-behaviour path. -/
theorem cleanup_message_absent_witness :
    cleanup_message (some (sample_entry 3 0 false)) c2_state =
      some { c2_state with free_queue := [sample_entry 3 0 false] } ∧
    cleanup_message (some (sample_entry 3 0 false)) empty_state = none :=
  ⟨cleanup_message_absent.1 c2_state (sample_entry 3 0 false) (by decide)
      (by decide),
    cleanup_message_absent.2 empty_state (sample_entry 3 0 false) rfl⟩

/-- C2 counterexample: removing an absent slot is not a no-op: on
`c2_state` (whose free queue is empty) the absent slot 2 ends up on the
free queue, and on an empty pending list the call is undefined behaviour
(`none`) instead of a logged no-op. -/
theorem cleanup_message_absent_counterexample :
    cleanup_message (some (sample_entry 2 0 false)) c2_state =
      some { c2_state with free_queue := [sample_entry 2 0 false] } ∧
    c2_state.free_queue = [] ∧
    cleanup_message (some (sample_entry 2 0 false)) empty_state = none := by
  decide

/-- C6 (amended): one run of `scheduled_daily_tasks` returns `true` and
leaves the pending and free queues (the whole state) unchanged, removing
and releasing nothing: the function body begins with `return true;`
(line 803), so the expiry sweep behind it never executes. -/
theorem scheduled_daily_tasks_noop (current_dotw : Nat) (st : SysState) :
    scheduled_daily_tasks current_dotw st = (true, st) := rfl

/-- C6 counterexample: on a Monday (`current_dotw = 1`) the expiry target
of the claim is `(1 + 2) % 7 = 3`, and the single pending message of
`c6_state` carries exactly `dow = 3`, so the claim requires the sweep to
remove and release it - yet the run leaves it pending and the free queue
empty. -/
theorem scheduled_daily_tasks_counterexample :
    (sample_entry 4 3 true).dow = (1 + 2) % 7 ∧
    scheduled_daily_tasks 1 c6_state = (true, c6_state) ∧
    sample_entry 4 3 true ∈
      (scheduled_daily_tasks 1 c6_state).2.message_queue ∧
    (scheduled_daily_tasks 1 c6_state).2.free_queue = [] := by
  decide

/-- C8: invoked while the free queue is empty, `create_message_entry`
reaches the fatal-restart path: the first component 1 counts the single
`machine_reset` invocation (lines 285-288), and there is no successor
state - no usable slot is returned and nothing is added to the pending
queue, since `machine_reset` never returns (line 162). -/
theorem create_message_entry_exhausted (timestamp f_port : Nat)
    (guaranteed_delivery : Bool) (type : Nat) (content : List Nat)
    (content_length : Nat) (st : SysState) (h : st.free_queue = []) :
    create_message_entry timestamp f_port guaranteed_delivery type content
      content_length st = (1, none) := by
  unfold create_message_entry
  rw [h]

/-- Witness for C8 at a concrete exhausted state. -/
theorem create_message_entry_exhausted_witness :
    create_message_entry 0 1 false 1 [1] 1 empty_state = (1, none) :=
  create_message_entry_exhausted 0 1 false 1 [1] 1 empty_state rfl

theorem getMin0_eq : getTimeComponentLimitMin 0 = 0 := rfl

theorem getMin1_eq : getTimeComponentLimitMin 1 = 0 := rfl

theorem getMin2_eq : getTimeComponentLimitMin 2 = 0 := rfl

theorem getMin3_eq : getTimeComponentLimitMin 3 = 1 := rfl

theorem getMin4_eq : getTimeComponentLimitMin 4 = 1 := rfl

theorem getMax0_eq (m y : Int) : getTimeComponentLimitMax 0 m y = 60 := rfl

theorem getMax1_eq (m y : Int) : getTimeComponentLimitMax 1 m y = 60 := rfl

theorem getMax2_eq (m y : Int) : getTimeComponentLimitMax 2 m y = 24 := rfl

theorem getMax4_eq (m y : Int) : getTimeComponentLimitMax 4 m y = 12 := rfl

theorem norm_step0_noop (t : datetime) (h1 : 0 ≤ t.sec) (h2 : t.sec < 60) :
    norm_step 0 t = t := by
  simp only [norm_step, getMin0_eq, getMax0_eq]
  rw [if_neg (by omega), if_neg (by omega)]

theorem norm_step1_noop (t : datetime) (h1 : 0 ≤ t.min) (h2 : t.min < 60) :
    norm_step 1 t = t := by
  simp only [norm_step, getMin1_eq, getMax1_eq]
  rw [if_neg (by omega), if_neg (by omega)]

theorem norm_step2_noop (t : datetime) (h1 : 0 ≤ t.hour)
    (h2 : t.hour < 24) : norm_step 2 t = t := by
  simp only [norm_step, getMin2_eq, getMax2_eq]
  rw [if_neg (by omega), if_neg (by omega)]

theorem norm_step4_noop (t : datetime) (h1 : 1 ≤ t.month)
    (h2 : t.month < 13) : norm_step 4 t = t := by
  simp only [norm_step, getMin4_eq, getMax4_eq]
  rw [if_neg (by omega), if_neg (by omega)]

theorem norm_step0_carry (t : datetime) (h : 60 ≤ t.sec) :
    norm_step 0 t =
      { t with min := toInt8 (t.min + 1), sec := toInt8 (t.sec - 60) } := by
  simp only [norm_step, getMin0_eq, getMax0_eq]
  rw [if_neg (by omega), if_pos (by omega)]

theorem norm_step3_borrow (t : datetime) (h : t.day < 1) :
    norm_step 3 t =
      { t with month := toInt8 (t.month - 1),
               day := toInt8 (t.day +
                 getTimeComponentLimitMax 3 t.month t.year) } := by
  simp only [norm_step, getMin3_eq]
  rw [if_pos (by omega)]

theorem norm_step_sec_eq (i : Nat) (t : datetime) (h : 1 ≤ i) :
    (norm_step i t).sec = t.sec := by
  match i, h with
  | 1, _ => simp only [norm_step]; split_ifs <;> rfl
  | 2, _ => simp only [norm_step]; split_ifs <;> rfl
  | 3, _ => simp only [norm_step]; split_ifs <;> rfl
  | 4, _ => simp only [norm_step]; split_ifs <;> rfl
  | n + 5, _ => rfl

theorem norm_step_preserves_lower (i j : Nat) (t : datetime) (hj : j < i) :
    time_component j (norm_step i t) = time_component j t := by
  match i, j, hj with
  | 1, 0, _ => simp only [norm_step, time_component]; split_ifs <;> rfl
  | 2, 0, _ => simp only [norm_step, time_component]; split_ifs <;> rfl
  | 2, 1, _ => simp only [norm_step, time_component]; split_ifs <;> rfl
  | 3, 0, _ => simp only [norm_step, time_component]; split_ifs <;> rfl
  | 3, 1, _ => simp only [norm_step, time_component]; split_ifs <;> rfl
  | 3, 2, _ => simp only [norm_step, time_component]; split_ifs <;> rfl
  | 4, 0, _ => simp only [norm_step, time_component]; split_ifs <;> rfl
  | 4, 1, _ => simp only [norm_step, time_component]; split_ifs <;> rfl
  | 4, 2, _ => simp only [norm_step, time_component]; split_ifs <;> rfl
  | 4, 3, _ => simp only [norm_step, time_component]; split_ifs <;> rfl
  | n + 5, j, _ => rfl

theorem norm_step_trichotomy (i : Nat) (t : datetime) (h : i ≤ 4) :
    time_component i (norm_step i t) = time_component i t ∨
    time_component i (norm_step i t) =
      toInt8 (time_component i t +
        getTimeComponentLimitMax i t.month t.year) ∨
    time_component i (norm_step i t) =
      toInt8 (time_component i t -
        getTimeComponentLimitMax i t.month t.year) := by
  match i, h with
  | 0, _ => simp only [norm_step, time_component]; split_ifs <;> simp
  | 1, _ => simp only [norm_step, time_component]; split_ifs <;> simp
  | 2, _ => simp only [norm_step, time_component]; split_ifs <;> simp
  | 3, _ => simp only [norm_step, time_component]; split_ifs <;> simp
  | 4, _ => simp only [norm_step, time_component]; split_ifs <;> simp

theorem normalize_sec_eq_step0 (t : datetime) :
    (normalize_time t).sec = (norm_step 0 t).sec := by
  unfold normalize_time
  rw [norm_step_sec_eq 4 _ (by norm_num), norm_step_sec_eq 3 _ (by norm_num),
    norm_step_sec_eq 2 _ (by norm_num), norm_step_sec_eq 1 _ (by norm_num)]

theorem sync_sec_eq (cur : datetime) (rb : List Nat) :
    (sync_time_on_timestamp cur rb).sec =
      (norm_step 0 (apply_time_deltas cur rb)).sec :=
  normalize_sec_eq_step0 (apply_time_deltas cur rb)

theorem sync_month_eq (cur : datetime) (rb : List Nat) :
    (sync_time_on_timestamp cur rb).month =
      (normalize_time (apply_time_deltas cur rb)).month := rfl

theorem sync_day_eq (cur : datetime) (rb : List Nat) :
    (sync_time_on_timestamp cur rb).day =
      (normalize_time (apply_time_deltas cur rb)).day := rfl

/-- C3 (amended): in `sync_time_on_timestamp`, a second delta that brings
the seconds to exactly 60 yields seconds 0 with one minute carried
forward; and a day delta that brings the day-of-month below 1 (the other
deltas zero and the start fields in range) decrements the month by one
but increases the day by the length of the month as it stood BEFORE the
decrement - `getTimeComponentLimitMax 3` evaluated at the un-decremented
month (leap-adjusted when that month is February) - not the length of the
previous (decremented) month stated by the claim. -/
theorem sync_time_carry_borrow :
    (∀ cur rb t0, apply_time_deltas cur rb = t0 → t0.sec = 60 →
      (sync_time_on_timestamp cur rb).sec = 0 ∧
      (norm_step 0 t0).min = toInt8 (t0.min + 1)) ∧
    (∀ cur rb t0, apply_time_deltas cur rb = t0 →
      0 ≤ t0.sec → t0.sec < 60 → 0 ≤ t0.min → t0.min < 60 →
      0 ≤ t0.hour → t0.hour < 24 → t0.day < 1 →
      2 ≤ t0.month → t0.month ≤ 12 →
      (sync_time_on_timestamp cur rb).month = t0.month - 1 ∧
      (sync_time_on_timestamp cur rb).day =
        toInt8 (t0.day + getTimeComponentLimitMax 3 t0.month t0.year)) := by
  constructor
  · intro cur rb t0 heq h60
    constructor
    · rw [sync_sec_eq, heq, norm_step0_carry t0 (by omega)]
      show toInt8 (t0.sec - 60) = 0
      rw [h60]
      decide
    · rw [norm_step0_carry t0 (by omega)]
  · intro cur rb t0 heq hs0 hs1 hm0 hm1 hh0 hh1 hd hmo1 hmo2
    have hmint : toInt8 (t0.month - 1) = t0.month - 1 :=
      toInt8_eq_of_range _ (by omega) (by omega)
    have hb := norm_step3_borrow t0 hd
    have h4 : norm_step 4 (norm_step 3 t0) = norm_step 3 t0 := by
      rw [hb]
      refine norm_step4_noop _ ?_ ?_
      · show 1 ≤ toInt8 (t0.month - 1)
        rw [hmint]; omega
      · show toInt8 (t0.month - 1) < 13
        rw [hmint]; omega
    have hnorm : normalize_time t0 = norm_step 3 t0 := by
      unfold normalize_time
      rw [norm_step0_noop t0 hs0 hs1, norm_step1_noop t0 hm0 hm1,
        norm_step2_noop t0 hh0 hh1, h4]
    constructor
    · rw [sync_month_eq, heq, hnorm, hb]
      exact hmint
    · rw [sync_day_eq, heq, hnorm, hb]

/-- Witness for C3: the carry part at a +60-second delta on 00:05:00, and
the borrow part at a -1-day delta on March 1 2023 (the day becomes
toInt8 (0 + 31) = 31, with 31 the length of March, the un-decremented
month). -/
theorem sync_time_carry_borrow_witness :
    ((sync_time_on_timestamp c3a_start c3a_buffer).sec = 0 ∧
      (norm_step 0 (apply_time_deltas c3a_start c3a_buffer)).min =
        toInt8 ((apply_time_deltas c3a_start c3a_buffer).min + 1)) ∧
    ((sync_time_on_timestamp c3_start c3_buffer).month =
        (apply_time_deltas c3_start c3_buffer).month - 1 ∧
      (sync_time_on_timestamp c3_start c3_buffer).day =
        toInt8 ((apply_time_deltas c3_start c3_buffer).day +
          getTimeComponentLimitMax 3
            (apply_time_deltas c3_start c3_buffer).month
            (apply_time_deltas c3_start c3_buffer).year)) :=
  ⟨sync_time_carry_borrow.1 c3a_start c3a_buffer
      (apply_time_deltas c3a_start c3a_buffer) rfl (by decide),
    sync_time_carry_borrow.2 c3_start c3_buffer
      (apply_time_deltas c3_start c3_buffer) rfl (by decide) (by decide)
      (by decide) (by decide) (by decide) (by decide) (by decide)
      (by decide) (by decide)⟩

/-- C3 counterexample: a -1-day delta on March 1 2023 must, per the
claim, set the day to the length of the previous (decremented) month -
February 2023, 28 days - but the code yields February 31: it adds the
31-day length of March, the month before the decrement. -/
theorem sync_time_borrow_counterexample :
    (sync_time_on_timestamp c3_start c3_buffer).month = 2 ∧
    (sync_time_on_timestamp c3_start c3_buffer).day = 31 ∧
    getTimeComponentLimitMax 3 2 2023 = 28 ∧ (31 : Int) ≠ 28 := by
  decide

/-- C10 (amended): each normalization iteration adjusts its own component
at most once - the component leaves its stage unchanged or moved by
exactly one modulus (`norm_step_trichotomy`), and stages do not touch the
components already normalized (`norm_step_preserves_lower`); for the
seconds (the component the claim instantiates, which no earlier stage can
shift) the final value is the raw post-delta value or that value plus or
minus 60; consequently a raw post-delta seconds value of at least 120
(two or more moduli out of range) is left out of range: the result is
that value minus 60, still at least 60. -/
theorem sync_time_single_adjustment :
    (∀ i t, i ≤ 4 →
      time_component i (norm_step i t) = time_component i t ∨
      time_component i (norm_step i t) =
        toInt8 (time_component i t +
          getTimeComponentLimitMax i t.month t.year) ∨
      time_component i (norm_step i t) =
        toInt8 (time_component i t -
          getTimeComponentLimitMax i t.month t.year)) ∧
    (∀ i j t, j < i →
      time_component j (norm_step i t) = time_component j t) ∧
    (∀ cur rb t0, apply_time_deltas cur rb = t0 →
      (sync_time_on_timestamp cur rb).sec = t0.sec ∨
      (sync_time_on_timestamp cur rb).sec = toInt8 (t0.sec + 60) ∨
      (sync_time_on_timestamp cur rb).sec = toInt8 (t0.sec - 60)) ∧
    (∀ cur rb t0, apply_time_deltas cur rb = t0 → 120 ≤ t0.sec →
      (sync_time_on_timestamp cur rb).sec = t0.sec - 60 ∧
      60 ≤ (sync_time_on_timestamp cur rb).sec) := by
  refine ⟨norm_step_trichotomy, norm_step_preserves_lower, ?_, ?_⟩
  · intro cur rb t0 heq
    have h := norm_step_trichotomy 0 t0 (by norm_num)
    rw [getMax0_eq] at h
    rw [sync_sec_eq, heq]
    exact h
  · intro cur rb t0 heq h120
    have hsec : toInt8 (cur.sec + (u8sub128 (rb.getD 10 0) : Int)) =
        t0.sec := congrArg datetime.sec heq
    have hbd := toInt8_bounds (cur.sec + (u8sub128 (rb.getD 10 0) : Int))
    rw [sync_sec_eq, heq, norm_step0_carry t0 (by omega)]
    show toInt8 (t0.sec - 60) = t0.sec - 60 ∧ 60 ≤ toInt8 (t0.sec - 60)
    rw [toInt8_eq_of_range _ (by omega) (by omega)]
    omega

/-- Witness for C10: the trichotomy at the seconds stage, the whole-run
seconds disposition for a +60 delta on 10:20:00, and the out-of-range
consequence for a +75 delta on 00:00:50 (raw seconds 125, final 65). -/
theorem sync_time_single_adjustment_witness :
    (time_component 0 (norm_step 0 c10_start) = time_component 0 c10_start ∨
      time_component 0 (norm_step 0 c10_start) =
        toInt8 (time_component 0 c10_start +
          getTimeComponentLimitMax 0 c10_start.month c10_start.year) ∨
      time_component 0 (norm_step 0 c10_start) =
        toInt8 (time_component 0 c10_start -
          getTimeComponentLimitMax 0 c10_start.month c10_start.year)) ∧
    (time_component 0 (norm_step 1 c10_start) =
      time_component 0 c10_start) ∧
    ((sync_time_on_timestamp c10_start c10_buffer).sec =
        (apply_time_deltas c10_start c10_buffer).sec ∨
      (sync_time_on_timestamp c10_start c10_buffer).sec =
        toInt8 ((apply_time_deltas c10_start c10_buffer).sec + 60) ∨
      (sync_time_on_timestamp c10_start c10_buffer).sec =
        toInt8 ((apply_time_deltas c10_start c10_buffer).sec - 60)) ∧
    ((sync_time_on_timestamp c10w_start c10w_buffer).sec =
        (apply_time_deltas c10w_start c10w_buffer).sec - 60 ∧
      60 ≤ (sync_time_on_timestamp c10w_start c10w_buffer).sec) :=
  ⟨sync_time_single_adjustment.1 0 c10_start (by norm_num),
    sync_time_single_adjustment.2.1 1 0 c10_start (by norm_num),
    sync_time_single_adjustment.2.2.1 c10_start c10_buffer
      (apply_time_deltas c10_start c10_buffer) rfl,
    sync_time_single_adjustment.2.2.2 c10w_start c10w_buffer
      (apply_time_deltas c10w_start c10w_buffer) rfl (by decide)⟩

/-- C10 counterexample: with a +60-second delta on 10:20:00 the raw
post-delta minute is 20, but the final minute is 21 (the carry from the
seconds stage shifted it): the final value of the minute component is
none of the raw value, the raw value plus 60, or the raw value minus
60. -/
theorem sync_time_single_adjustment_counterexample :
    (apply_time_deltas c10_start c10_buffer).min = 20 ∧
    (sync_time_on_timestamp c10_start c10_buffer).min = 21 ∧
    ((21 : Int) ≠ 20 ∧ (21 : Int) ≠ 20 + 60 ∧ (21 : Int) ≠ 20 - 60) := by
  decide

/-- Witness for C4 at version 3, dow 4, 12:34:56 (45296 s), guaranteed,
type 5, content length 4. -/
theorem header_codec_roundtrip_witness :
    decode_version (encode_header 3 ((4 <<< 17) + 45296) true 5 4) = 3 ∧
    timestamp_dow
      (decode_timestamp (encode_header 3 ((4 <<< 17) + 45296) true 5 4)) = 4 ∧
    timestamp_time
      (decode_timestamp (encode_header 3 ((4 <<< 17) + 45296) true 5 4)) =
      45296 ∧
    decode_guaranteed (encode_header 3 ((4 <<< 17) + 45296) true 5 4) =
      true ∧
    decode_type (encode_header 3 ((4 <<< 17) + 45296) true 5 4) = 5 ∧
    decode_content_length (encode_header 3 ((4 <<< 17) + 45296) true 5 4) =
      4 :=
  header_codec_roundtrip 3 4 45296 true 5 4 (by norm_num) (by norm_num)
    (by norm_num) (by norm_num) (by norm_num)

theorem remove_first_ids_perm (i : Nat) (l : List message_entry)
    (h : i ∈ l.map message_entry.id) :
    (i :: (remove_first i l).map message_entry.id).Perm
      (l.map message_entry.id) := by
  induction l with
  | nil => simp at h
  | cons e rest ih =>
    simp only [List.map_cons, List.mem_cons] at h
    by_cases he : e.id = i
    · subst he
      simp only [remove_first, if_pos rfl, List.map_cons]
      exact List.Perm.refl _
    · have hi : i ∈ rest.map message_entry.id := by
        rcases h with h | h
        · exact absurd h.symm he
        · exact h
      simp only [remove_first, if_neg he, List.map_cons]
      exact (List.Perm.swap e.id i _).trans ((ih hi).cons e.id)

theorem reachable_ids_perm (st : SysState) (h : reachable st) :
    ((st.message_queue ++ st.free_queue).map message_entry.id).Perm
      (List.range MESSAGE_QUEUE_SIZE) := by
  induction h with
  | init =>
    simp only [init_state, List.nil_append, List.map_map]
    rw [show message_entry.id ∘ blank_entry = id from rfl, List.map_id]
  | create st ts fp g ty c cl st2 hr heq ih =>
    cases hf : st.free_queue with
    | nil => simp [create_message_entry, hf] at heq
    | cons slot rest =>
      simp only [create_message_entry, hf] at heq
      have hst2 := Option.some.inj heq
      subst hst2
      simp only [List.map_cons, List.map_append, List.cons_append]
      refine List.Perm.trans ?_
        (by simpa [hf, List.map_append] using ih)
      exact List.perm_middle.symm
  | cleanup st m st2 hr hm heq ih =>
    cases hq : st.message_queue with
    | nil => rw [hq] at hm; simp at hm
    | cons p rest =>
      simp only [cleanup_message, hq] at heq
      have hst2 := Option.some.inj heq
      subst hst2
      have hmid : m.id ∈ (p :: rest).map message_entry.id := by
        rw [← hq]
        exact List.mem_map_of_mem _ hm
      have hrf : (remove_first m.id (p :: rest)).map message_entry.id ++
            m.id :: st.free_queue.map message_entry.id
          |>.Perm ((p :: rest).map message_entry.id ++
            st.free_queue.map message_entry.id) := by
        refine List.Perm.trans List.perm_middle ?_
        exact List.Perm.append_right _ (remove_first_ids_perm m.id _ hmid)
      simp only [List.map_append, List.map_cons]
      show ((if p.id = m.id then rest else p :: remove_first m.id rest).map
          message_entry.id ++ m.id :: st.free_queue.map message_entry.id)
          |>.Perm (List.range MESSAGE_QUEUE_SIZE)
      have hq1 : (if p.id = m.id then rest else p :: remove_first m.id rest)
          = remove_first m.id (p :: rest) := rfl
      rw [hq1]
      refine hrf.trans ?_
      have := ih
      rw [hq] at this
      simpa [List.map_append] using this

/-- C7: starting from the initial state (all MESSAGE_QUEUE_SIZE slots on
the free list, empty pending list), after every finite sequence of
`create_message_entry` acquisitions and `cleanup_message` releases of
pending slots, the pending-list length plus the free-list length equals
MESSAGE_QUEUE_SIZE, and no slot is a member of both lists. -/
theorem pool_conservation (st : SysState) (h : reachable st) :
    st.message_queue.length + st.free_queue.length = MESSAGE_QUEUE_SIZE ∧
    List.Disjoint (st.message_queue.map message_entry.id)
      (st.free_queue.map message_entry.id) := by
  have hp := reachable_ids_perm st h
  constructor
  · have hl := hp.length_eq
    simpa [List.length_append] using hl
  · have hnd : ((st.message_queue ++ st.free_queue).map
        message_entry.id).Nodup :=
      (hp.nodup_iff).mpr (List.nodup_range _)
    rw [List.map_append, List.nodup_append] at hnd
    exact hnd.2.2

/-- Witness for C7 at the initial state itself. -/
theorem pool_conservation_witness :
    init_state.message_queue.length + init_state.free_queue.length =
      MESSAGE_QUEUE_SIZE ∧
    List.Disjoint (init_state.message_queue.map message_entry.id)
      (init_state.free_queue.map message_entry.id) :=
  pool_conservation init_state reachable.init

theorem listen_loop_timeout (st : SysState) (evs : List recv_event)
    (ht : ∀ e ∈ evs, e = recv_event.timeout) :
    (listen_loop st evs).1.message_queue = st.message_queue ∧
    (listen_loop st evs).1.free_queue = st.free_queue ∧
    (listen_loop st evs).1.failed_send_packet_count =
      st.failed_send_packet_count ∧
    ∀ e ∈ (listen_loop st evs).2, e = recv_event.timeout := by
  cases evs with
  | nil =>
    refine ⟨rfl, rfl, rfl, ?_⟩
    intro e he
    exact absurd he (List.not_mem_nil e)
  | cons e rest =>
    have he := ht e (List.mem_cons_self e rest)
    subst he
    refine ⟨rfl, rfl, rfl, ?_⟩
    intro e2 he2
    exact ht e2 (List.mem_cons_of_mem _ he2)

theorem set_send_time_queue_ids (i now : Nat) (st : SysState) :
    (set_send_time i now st).message_queue.map message_entry.id =
      st.message_queue.map message_entry.id := by
  unfold set_send_time
  simp only [List.map_map]
  refine List.map_congr_left ?_
  intro e _
  simp only [Function.comp]
  split_ifs <;> rfl

theorem set_send_time_free_ids (i now : Nat) (st : SysState) :
    (set_send_time i now st).free_queue.map message_entry.id =
      st.free_queue.map message_entry.id := by
  unfold set_send_time
  simp only [List.map_map]
  refine List.map_congr_left ?_
  intro e _
  simp only [Function.comp]
  split_ifs <;> rfl

theorem mem_set_send_time_queue (i now : Nat) (st : SysState)
    (q : message_entry) (hq : q ∈ st.message_queue) (hne : q.id ≠ i) :
    q ∈ (set_send_time i now st).message_queue := by
  have h2 := List.mem_map_of_mem
    (fun e => if e.id = i then { e with send_time := now } else e) hq
  simp only at h2
  rw [if_neg hne] at h2
  exact h2

theorem remove_first_sublist (i : Nat) (l : List message_entry) :
    (remove_first i l).Sublist l := by
  induction l with
  | nil => exact List.Sublist.refl _
  | cons e rest ih =>
    unfold remove_first
    split_ifs
    · exact List.sublist_cons_self e rest
    · exact ih.cons₂ e

theorem mem_remove_first_of_ne (i : Nat) (l : List message_entry)
    (q : message_entry) (hq : q ∈ l) (hne : q.id ≠ i) :
    q ∈ remove_first i l := by
  induction l with
  | nil => cases hq
  | cons e rest ih =>
    unfold remove_first
    rcases List.mem_cons.mp hq with h | h
    · subst h
      rw [if_neg hne]
      exact List.mem_cons_self _ _
    · split_ifs with he
      · exact h
      · exact List.mem_cons_of_mem _ (ih h)

theorem not_mem_ids_remove_first (i : Nat) (l : List message_entry)
    (hnd : (l.map message_entry.id).Nodup) :
    i ∉ (remove_first i l).map message_entry.id := by
  induction l with
  | nil => simp [remove_first]
  | cons e rest ih =>
    simp only [List.map_cons, List.nodup_cons] at hnd
    unfold remove_first
    split_ifs with he
    · rw [← he]
      exact hnd.1
    · simp only [List.map_cons, List.mem_cons]
      push_neg
      exact ⟨fun h => he h.symm, ih hnd.2⟩

theorem cleanup_message_cons (m : message_entry) (st : SysState)
    (hne : st.message_queue ≠ []) :
    cleanup_message (some m) st =
      some { st with
        message_queue := remove_first m.id st.message_queue,
        free_queue := m :: st.free_queue } := by
  cases hq : st.message_queue with
  | nil => exact absurd hq hne
  | cons p rest => simp only [cleanup_message, hq, remove_first]

theorem transfer_walk_all_fail (now : Nat) (sendR : Nat → Int)
    (hs : ∀ k, sendR k < 0) :
    ∀ (msgs : List message_entry) (st : SysState) (evs : List recv_event)
      (k : Nat), ∃ b st2 evs2 k2,
      transfer_walk now sendR msgs st evs k = some (b, st2, evs2, k2) ∧
      st2.message_queue = st.message_queue ∧
      st2.free_queue = st.free_queue := by
  intro msgs
  induction msgs with
  | nil =>
    intro st evs k
    exact ⟨true, st, evs, k, rfl, rfl, rfl⟩
  | cons msg rest ih =>
    intro st evs k
    by_cases hdue : now - msg.send_time > MESSAGE_TIMEOUT_US
    · refine ⟨false,
        { st with failed_send_packet_count :=
            st.failed_send_packet_count + 1 }, evs, k + 1, ?_, rfl, rfl⟩
      simp only [transfer_walk, if_pos hdue, if_pos (hs k)]
    · obtain ⟨b, st2, evs2, k2, heq, h1, h2⟩ := ih st evs k
      refine ⟨b, st2, evs2, k2, ?_, h1, h2⟩
      simpa only [transfer_walk, if_neg hdue] using heq

theorem transfer_walk_mono (now : Nat) (sendR : Nat → Int)
    (hs : ∀ k, 0 ≤ sendR k) :
    ∀ (msgs : List message_entry) (st : SysState) (evs : List recv_event)
      (k : Nat),
      (∀ e ∈ evs, e = recv_event.timeout) →
      (∀ q ∈ msgs, q ∈ st.message_queue) →
      (st.message_queue.map message_entry.id).Nodup →
      (msgs.map message_entry.id).Nodup →
      ∃ st2 evs2 k2,
        transfer_walk now sendR msgs st evs k = some (true, st2, evs2, k2) ∧
        (∀ i, i ∈ st2.message_queue.map message_entry.id →
          i ∈ st.message_queue.map message_entry.id) ∧
        (∀ i, i ∈ st.free_queue.map message_entry.id →
          i ∈ st2.free_queue.map message_entry.id) := by
  intro msgs
  induction msgs with
  | nil =>
    intro st evs k ht hmem hndq hndm
    exact ⟨st, evs, k, rfl, fun i hi => hi, fun i hi => hi⟩
  | cons msg rest ih =>
    intro st evs k ht hmem hndq hndm
    simp only [List.map_cons, List.nodup_cons] at hndm
    by_cases hdue : now - msg.send_time > MESSAGE_TIMEOUT_US
    · have hsend : ¬ sendR k < 0 := not_lt.mpr (hs k)
      have hmsg : msg ∈ st.message_queue := hmem msg (List.mem_cons_self _ _)
      have hqid : ∀ q ∈ rest, q.id ≠ msg.id := by
        intro q hq hid
        exact hndm.1 (hid ▸ List.mem_map_of_mem message_entry.id hq)
      by_cases hg : msg.guaranteed_delivery
      · set stq := set_send_time msg.id now
          { st with failed_send_packet_count := 0 } with hstq
        obtain ⟨hL1, hL2, hL3, hL4⟩ := listen_loop_timeout stq evs ht
        have hmem2 : ∀ q ∈ rest, q ∈ (listen_loop stq evs).1.message_queue := by
          intro q hq
          rw [hL1, hstq]
          exact mem_set_send_time_queue msg.id now _ q
            (hmem q (List.mem_cons_of_mem _ hq)) (hqid q hq)
        have hnd2 : ((listen_loop stq evs).1.message_queue.map
            message_entry.id).Nodup := by
          rw [hL1, hstq, set_send_time_queue_ids]
          exact hndq
        obtain ⟨st2, evs2, k2, heq, hm1, hm2⟩ :=
          ih (listen_loop stq evs).1 (listen_loop stq evs).2 (k + 1) hL4
            hmem2 hnd2 hndm.2
        refine ⟨st2, evs2, k2, ?_, ?_, ?_⟩
        · simp only [transfer_walk, if_pos hdue, if_neg hsend, if_pos hg]
          exact heq
        · intro i hi
          have h3 := hm1 i hi
          rw [hL1, hstq, set_send_time_queue_ids] at h3
          exact h3
        · intro i hi
          apply hm2
          rw [hL2, hstq, set_send_time_free_ids]
          exact hi
      · have hne : st.message_queue ≠ [] := by
          intro h0
          rw [h0] at hmsg
          exact absurd hmsg (List.not_mem_nil _)
        have hclean := cleanup_message_cons msg st hne
        set st1 : SysState :=
          { st with message_queue := remove_first msg.id st.message_queue,
                    free_queue := msg :: st.free_queue } with hst1
        set stq := set_send_time msg.id now
          { st1 with failed_send_packet_count := 0 } with hstq
        obtain ⟨hL1, hL2, hL3, hL4⟩ := listen_loop_timeout stq evs ht
        have hmem2 : ∀ q ∈ rest, q ∈ (listen_loop stq evs).1.message_queue := by
          intro q hq
          rw [hL1, hstq]
          refine mem_set_send_time_queue msg.id now _ q ?_ (hqid q hq)
          show q ∈ remove_first msg.id st.message_queue
          exact mem_remove_first_of_ne msg.id _ q
            (hmem q (List.mem_cons_of_mem _ hq)) (hqid q hq)
        have hnd2 : ((listen_loop stq evs).1.message_queue.map
            message_entry.id).Nodup := by
          rw [hL1, hstq, set_send_time_queue_ids]
          show ((remove_first msg.id st.message_queue).map
            message_entry.id).Nodup
          exact hndq.sublist
            ((remove_first_sublist msg.id st.message_queue).map
              message_entry.id)
        obtain ⟨st2, evs2, k2, heq, hm1, hm2⟩ :=
          ih (listen_loop stq evs).1 (listen_loop stq evs).2 (k + 1) hL4
            hmem2 hnd2 hndm.2
        refine ⟨st2, evs2, k2, ?_, ?_, ?_⟩
        · simp only [transfer_walk, if_pos hdue, if_neg hsend, if_neg hg]
          rw [hclean]
          exact heq
        · intro i hi
          have h3 := hm1 i hi
          rw [hL1, hstq, set_send_time_queue_ids] at h3
          have h4 : i ∈ (remove_first msg.id st.message_queue).map
              message_entry.id := h3
          exact ((remove_first_sublist msg.id st.message_queue).map
            message_entry.id).subset h4
        · intro i hi
          apply hm2
          rw [hL2, hstq, set_send_time_free_ids]
          show i ∈ (msg :: st.free_queue).map message_entry.id
          exact List.mem_cons_of_mem _ hi
    · obtain ⟨st2, evs2, k2, heq, hm1, hm2⟩ :=
        ih st evs k ht (fun q hq => hmem q (List.mem_cons_of_mem _ hq))
          hndq hndm.2
      refine ⟨st2, evs2, k2, ?_, hm1, hm2⟩
      simpa only [transfer_walk, if_neg hdue] using heq

theorem transfer_walk_removes (now : Nat) (sendR : Nat → Int)
    (hs : ∀ k, 0 ≤ sendR k) (m : message_entry)
    (hg : m.guaranteed_delivery = false)
    (hdue : now - m.send_time > MESSAGE_TIMEOUT_US) :
    ∀ (msgs : List message_entry) (st : SysState) (evs : List recv_event)
      (k : Nat),
      (∀ e ∈ evs, e = recv_event.timeout) →
      (∀ q ∈ msgs, q ∈ st.message_queue) →
      (st.message_queue.map message_entry.id).Nodup →
      (msgs.map message_entry.id).Nodup →
      m ∈ msgs →
      ∃ st2 evs2 k2,
        transfer_walk now sendR msgs st evs k = some (true, st2, evs2, k2) ∧
        m.id ∉ st2.message_queue.map message_entry.id ∧
        m.id ∈ st2.free_queue.map message_entry.id := by
  intro msgs
  induction msgs with
  | nil =>
    intro st evs k _ _ _ _ hm
    cases hm
  | cons msg rest ih =>
    intro st evs k ht hmem hndq hndm hm
    simp only [List.map_cons, List.nodup_cons] at hndm
    have hqid : ∀ q ∈ rest, q.id ≠ msg.id := by
      intro q hq hid
      exact hndm.1 (hid ▸ List.mem_map_of_mem message_entry.id hq)
    by_cases hmsgm : msg = m
    · subst hmsgm
      have hsend : ¬ sendR k < 0 := not_lt.mpr (hs k)
      have hmsg : msg ∈ st.message_queue := hmem msg (List.mem_cons_self _ _)
      have hgne : ¬ msg.guaranteed_delivery = true := by
        rw [hg]
        exact Bool.false_ne_true
      have hne : st.message_queue ≠ [] := by
        intro h0
        rw [h0] at hmsg
        exact absurd hmsg (List.not_mem_nil _)
      have hclean := cleanup_message_cons msg st hne
      set st1 : SysState :=
        { st with message_queue := remove_first msg.id st.message_queue,
                  free_queue := msg :: st.free_queue } with hst1
      set stq := set_send_time msg.id now
        { st1 with failed_send_packet_count := 0 } with hstq
      obtain ⟨hL1, hL2, hL3, hL4⟩ := listen_loop_timeout stq evs ht
      have hmem2 : ∀ q ∈ rest, q ∈ (listen_loop stq evs).1.message_queue := by
        intro q hq
        rw [hL1, hstq]
        refine mem_set_send_time_queue msg.id now _ q ?_ (hqid q hq)
        show q ∈ remove_first msg.id st.message_queue
        exact mem_remove_first_of_ne msg.id _ q
          (hmem q (List.mem_cons_of_mem _ hq)) (hqid q hq)
      have hnd2 : ((listen_loop stq evs).1.message_queue.map
          message_entry.id).Nodup := by
        rw [hL1, hstq, set_send_time_queue_ids]
        show ((remove_first msg.id st.message_queue).map
          message_entry.id).Nodup
        exact hndq.sublist
          ((remove_first_sublist msg.id st.message_queue).map
            message_entry.id)
      obtain ⟨st2, evs2, k2, heq, hm1, hm2⟩ :=
        transfer_walk_mono now sendR hs rest (listen_loop stq evs).1
          (listen_loop stq evs).2 (k + 1) hL4 hmem2 hnd2 hndm.2
      refine ⟨st2, evs2, k2, ?_, ?_, ?_⟩
      · simp only [transfer_walk, if_pos hdue, if_neg hsend, if_neg hgne]
        rw [hclean]
        exact heq
      · intro habs
        have h3 := hm1 msg.id habs
        rw [hL1, hstq, set_send_time_queue_ids] at h3
        exact not_mem_ids_remove_first msg.id st.message_queue hndq h3
      · apply hm2
        rw [hL2, hstq, set_send_time_free_ids]
        show msg.id ∈ (msg :: st.free_queue).map message_entry.id
        exact List.mem_map_of_mem _ (List.mem_cons_self _ _)
    · have hmrest : m ∈ rest := by
        rcases List.mem_cons.mp hm with h | h
        · exact absurd h.symm hmsgm
        · exact h
      by_cases hdue2 : now - msg.send_time > MESSAGE_TIMEOUT_US
      · have hsend : ¬ sendR k < 0 := not_lt.mpr (hs k)
        have hmsg : msg ∈ st.message_queue :=
          hmem msg (List.mem_cons_self _ _)
        by_cases hgb : msg.guaranteed_delivery
        · set stq := set_send_time msg.id now
            { st with failed_send_packet_count := 0 } with hstq
          obtain ⟨hL1, hL2, hL3, hL4⟩ := listen_loop_timeout stq evs ht
          have hmem2 : ∀ q ∈ rest,
              q ∈ (listen_loop stq evs).1.message_queue := by
            intro q hq
            rw [hL1, hstq]
            exact mem_set_send_time_queue msg.id now _ q
              (hmem q (List.mem_cons_of_mem _ hq)) (hqid q hq)
          have hnd2 : ((listen_loop stq evs).1.message_queue.map
              message_entry.id).Nodup := by
            rw [hL1, hstq, set_send_time_queue_ids]
            exact hndq
          obtain ⟨st2, evs2, k2, heq, hni, hfi⟩ :=
            ih (listen_loop stq evs).1 (listen_loop stq evs).2 (k + 1) hL4
              hmem2 hnd2 hndm.2 hmrest
          refine ⟨st2, evs2, k2, ?_, hni, hfi⟩
          simp only [transfer_walk, if_pos hdue2, if_neg hsend, if_pos hgb]
          exact heq
        · have hne : st.message_queue ≠ [] := by
            intro h0
            rw [h0] at hmsg
            exact absurd hmsg (List.not_mem_nil _)
          have hclean := cleanup_message_cons msg st hne
          set st1 : SysState :=
            { st with
              message_queue := remove_first msg.id st.message_queue,
              free_queue := msg :: st.free_queue } with hst1
          set stq := set_send_time msg.id now
            { st1 with failed_send_packet_count := 0 } with hstq
          obtain ⟨hL1, hL2, hL3, hL4⟩ := listen_loop_timeout stq evs ht
          have hmem2 : ∀ q ∈ rest,
              q ∈ (listen_loop stq evs).1.message_queue := by
            intro q hq
            rw [hL1, hstq]
            refine mem_set_send_time_queue msg.id now _ q ?_ (hqid q hq)
            show q ∈ remove_first msg.id st.message_queue
            exact mem_remove_first_of_ne msg.id _ q
              (hmem q (List.mem_cons_of_mem _ hq)) (hqid q hq)
          have hnd2 : ((listen_loop stq evs).1.message_queue.map
              message_entry.id).Nodup := by
            rw [hL1, hstq, set_send_time_queue_ids]
            show ((remove_first msg.id st.message_queue).map
              message_entry.id).Nodup
            exact hndq.sublist
              ((remove_first_sublist msg.id st.message_queue).map
                message_entry.id)
          obtain ⟨st2, evs2, k2, heq, hni, hfi⟩ :=
            ih (listen_loop stq evs).1 (listen_loop stq evs).2 (k + 1) hL4
              hmem2 hnd2 hndm.2 hmrest
          refine ⟨st2, evs2, k2, ?_, hni, hfi⟩
          simp only [transfer_walk, if_pos hdue2, if_neg hsend, if_neg hgb]
          rw [hclean]
          exact heq
      · obtain ⟨st2, evs2, k2, heq, hni, hfi⟩ :=
          ih st evs k ht (fun q hq => hmem q (List.mem_cons_of_mem _ hq))
            hndq hndm.2 hmrest
        refine ⟨st2, evs2, k2, ?_, hni, hfi⟩
        simpa only [transfer_walk, if_neg hdue2] using heq

/-- C1 (amended): the disposal rule of `transfer_data` is keyed to send
SUCCESS, not to attempt completion.  (1) A non-guaranteed message whose
send succeeds is removed from the pending queue and released to the free
pool by the end of the call (stated for runs whose listen phases only
time out and whose sends all succeed).  (2) When every send fails, the
pending and free queues are completely unchanged - in particular a
non-guaranteed message whose send fails is NOT removed, and a guaranteed
message whose send fails remains pending.  (3) A failed send of the head
message aborts the call at once: the result is `false` and the only state
change is the incremented consecutive-failure counter. -/
theorem transfer_data_disposal :
    (∀ now sendR evs st m,
      (∀ e ∈ evs, e = recv_event.timeout) →
      (∀ k, 0 ≤ sendR k) →
      (st.message_queue.map message_entry.id).Nodup →
      m ∈ st.message_queue →
      m.guaranteed_delivery = false →
      now - m.send_time > MESSAGE_TIMEOUT_US →
      ¬ st.failed_send_packet_count > 5 →
      td_result_ok (transfer_data now sendR evs st) = true ∧
      m.id ∉ td_pending_ids (transfer_data now sendR evs st) ∧
      m.id ∈ td_free_ids (transfer_data now sendR evs st)) ∧
    (∀ now sendR evs st,
      (∀ k, sendR k < 0) →
      ¬ st.failed_send_packet_count > 5 →
      (transfer_data now sendR evs st).isSome = true ∧
      td_pending_ids (transfer_data now sendR evs st) =
        st.message_queue.map message_entry.id ∧
      td_free_ids (transfer_data now sendR evs st) =
        st.free_queue.map message_entry.id) ∧
    (∀ now sendR evs st m rest,
      st.message_queue = m :: rest →
      now - m.send_time > MESSAGE_TIMEOUT_US →
      sendR 0 < 0 →
      ¬ st.failed_send_packet_count > 5 →
      transfer_data now sendR evs st =
        some (false, { st with failed_send_packet_count :=
          st.failed_send_packet_count + 1 })) := by
  refine ⟨?_, ?_, ?_⟩
  · intro now sendR evs st m ht hs hndq hm hg hdue hf
    cases hq : st.message_queue with
    | nil =>
      rw [hq] at hm
      cases hm
    | cons p rest =>
      obtain ⟨st2, evs2, k2, heq, hni, hfi⟩ :=
        transfer_walk_removes now sendR hs m hg hdue (p :: rest) st evs 0
          ht (fun q hq2 => by rw [hq]; exact hq2) hndq
          (by rw [← hq]; exact hndq) (by rw [← hq]; exact hm)
      have htd : transfer_data now sendR evs st = some (true, st2) := by
        unfold transfer_data
        rw [if_neg hf, hq]
        simp only []
        rw [heq]
      rw [htd]
      exact ⟨rfl, hni, hfi⟩
  · intro now sendR evs st hs hf
    cases hq : st.message_queue with
    | nil =>
      have htd : transfer_data now sendR evs st = some (true, st) := by
        unfold transfer_data
        rw [if_neg hf, hq]
      rw [htd]
      refine ⟨rfl, ?_, rfl⟩
      show st.message_queue.map message_entry.id =
        List.map message_entry.id []
      rw [hq]
    | cons p rest =>
      obtain ⟨b, st2, evs2, k2, heq, h1, h2⟩ :=
        transfer_walk_all_fail now sendR hs (p :: rest) st evs 0
      have htd : transfer_data now sendR evs st = some (b, st2) := by
        unfold transfer_data
        rw [if_neg hf, hq]
        simp only []
        rw [heq]
      rw [htd]
      refine ⟨rfl, ?_, ?_⟩
      · show st2.message_queue.map message_entry.id =
          List.map message_entry.id (p :: rest)
        rw [h1, hq]
      · show st2.free_queue.map message_entry.id =
          st.free_queue.map message_entry.id
        rw [h2]
  · intro now sendR evs st m rest hq hdue hfail hf
    unfold transfer_data
    rw [if_neg hf, hq]
    simp only [transfer_walk, if_pos hdue, if_pos hfail]
    rw [hq]

/-- Witness for C1: part 1 on a single due non-guaranteed message (slot
9) with a succeeding send and a timing-out listen window; parts 2 and 3
on slot 7 with a failing radio. -/
theorem transfer_data_disposal_witness :
    (td_result_ok (transfer_data 700000001 (fun _ => 0)
        [recv_event.timeout] c1w_state) = true ∧
      (sample_entry 9 0 false).id ∉ td_pending_ids
        (transfer_data 700000001 (fun _ => 0) [recv_event.timeout]
          c1w_state) ∧
      (sample_entry 9 0 false).id ∈ td_free_ids
        (transfer_data 700000001 (fun _ => 0) [recv_event.timeout]
          c1w_state)) ∧
    ((transfer_data 700000001 (fun _ => -1) [] c1x_state).isSome = true ∧
      td_pending_ids (transfer_data 700000001 (fun _ => -1) [] c1x_state) =
        c1x_state.message_queue.map message_entry.id ∧
      td_free_ids (transfer_data 700000001 (fun _ => -1) [] c1x_state) =
        c1x_state.free_queue.map message_entry.id) ∧
    transfer_data 700000001 (fun _ => -1) [] c1x_state =
      some (false, { c1x_state with failed_send_packet_count :=
        c1x_state.failed_send_packet_count + 1 }) :=
  ⟨transfer_data_disposal.1 700000001 (fun _ => 0) [recv_event.timeout]
      c1w_state (sample_entry 9 0 false) (by decide) (fun k => le_refl 0)
      (by decide) (by decide) (by decide) (by decide) (by decide),
    transfer_data_disposal.2.1 700000001 (fun _ => -1) [] c1x_state
      (fun k => by norm_num) (by decide),
    transfer_data_disposal.2.2 700000001 (fun _ => -1) [] c1x_state
      (sample_entry 7 0 false) [] rfl (by decide) (by norm_num)
      (by decide)⟩

/-- C1 counterexample: the single pending message of `c1x_state` is
non-guaranteed and due; its send attempt completes with a failure, and
per the claim it must then be removed from the pending list and released
to the free pool - but `transfer_data` returns `false` with the message
still pending and the free queue still empty. -/
theorem transfer_data_disposal_counterexample :
    transfer_data 700000001 (fun _ => -1) [] c1x_state =
      some (false, { c1x_state with failed_send_packet_count := 1 }) ∧
    (sample_entry 7 0 false).id ∈
      td_pending_ids (transfer_data 700000001 (fun _ => -1) [] c1x_state) ∧
    td_free_ids (transfer_data 700000001 (fun _ => -1) [] c1x_state)
      = [] := by
  refine ⟨?_, ?_, ?_⟩ <;> decide
